import Mathlib

/-
Shallow embedding of src/src/relp.c (librelp core engine, 2008 snapshot).

The file models the engine object and the operations relp.c defines on it:
construction, destruction, the debug-print sink, the listener and session
lists with their length counters, the select-based readiness loop
relpEngineRun, and the frame dispatcher relpEngineDispatchFrame.

External collaborators that live in other translation units (relpsess.c,
relpsrv.c, relpframe.c) are abstracted as parameters: relpSessAcceptAndConstruct
becomes an accept function, relpSessRcvData becomes a per-session result
function, relpSCInit becomes a result value, and the readiness outcome of
select becomes a predicate on sockets. Allocation success of calloc is an
explicit boolean parameter. Machine ints that only count list entries are
modelled as Int (they are incremented and decremented far from any overflow).
-/

set_option autoImplicit false

namespace Librelp

/-- Return codes of librelp functions (relpRetVal). Besides RELP_RET_OK we
model the two error codes relp.c itself produces, RELP_RET_OUT_OF_MEMORY and
RELP_RET_INVALID_CMD, and a generic constructor for error codes produced by
the other modules (for example by relpSessRcvData). -/
inductive relpRetVal where
  | ok
  | outOfMemory
  | invalidCmd
  | err (code : Nat)
  deriving DecidableEq, Repr

/-- A RELP server (listener) object, reduced to what relp.c observes of it:
its bound listen sockets, as exposed by relpSrvGetNumLstnSocks and
relpSrvGetLstnSock (iterating i = 1 .. num yields exactly this list). -/
structure relpSrv_t where
  lstnSocks : List Int
  deriving DecidableEq, Repr

/-- A RELP session object, reduced to what relp.c observes of it: the socket
returned by relpSessGetSock. -/
structure relpSess_t where
  sock : Int
  deriving DecidableEq, Repr

/-- The dbgprint field of the engine: a function pointer that is either NULL
(the calloc-zeroed initial value), the static no-op dbgprintDummy, or a
user-supplied printf-like function (identified here by a tag). -/
inductive dbgSink_t where
  | nullSink
  | dummySink
  | userSink (tag : Nat)
  deriving DecidableEq, Repr

/-- The RELP engine object (relpEngine_t), reduced to the fields relp.c
manipulates: the server (listener) list with its length counter lenSrvLst,
the session list with its length counter lenSessLst, and the dbgprint sink.
The doubly linked lists rooted at pSrvLstRoot and pSessLstRoot are modelled
as Lean lists; DLL_Add appends at the tail (the Last pointer). The two
mutexes are modelled separately as event traces, see the lockEv section. -/
@[ext]
structure relpEngine_t where
  pSrvLst : List relpSrv_t
  lenSrvLst : Int
  pSessLst : List relpSess_t
  lenSessLst : Int
  dbgprint : dbgSink_t
  deriving DecidableEq, Repr

/-- relpEngineConstruct: calloc one engine object, so every field starts
zeroed: both lists empty, both length counters 0 and the dbgprint pointer
NULL. A failed allocation aborts with RELP_RET_OUT_OF_MEMORY before any
state exists. -/
def relpEngineConstruct (allocOk : Bool) : Except relpRetVal relpEngine_t :=
  if allocOk then
    Except.ok
      { pSrvLst := [], lenSrvLst := 0, pSessLst := [], lenSessLst := 0,
        dbgprint := dbgSink_t.nullSink }
  else
    Except.error relpRetVal.outOfMemory

/-- relpEngineAddToSrvList: calloc a list entry; on OOM abort with
RELP_RET_OUT_OF_MEMORY before touching the engine. Otherwise, under
mutSrvLst, DLL_Add the entry at the tail and increment lenSrvLst. -/
def relpEngineAddToSrvList (allocOk : Bool) (pThis : relpEngine_t)
    (pSrv : relpSrv_t) : relpRetVal × relpEngine_t :=
  if allocOk then
    (relpRetVal.ok,
      { pThis with pSrvLst := pThis.pSrvLst ++ [pSrv],
                   lenSrvLst := pThis.lenSrvLst + 1 })
  else
    (relpRetVal.outOfMemory, pThis)

/-- relpEngineAddToSess: calloc a list entry; on OOM abort with
RELP_RET_OUT_OF_MEMORY before touching the engine. Otherwise, under
mutSessLst, DLL_Add the entry at the tail and increment lenSessLst. -/
def relpEngineAddToSess (allocOk : Bool) (pThis : relpEngine_t)
    (pSess : relpSess_t) : relpRetVal × relpEngine_t :=
  if allocOk then
    (relpRetVal.ok,
      { pThis with pSessLst := pThis.pSessLst ++ [pSess],
                   lenSessLst := pThis.lenSessLst + 1 })
  else
    (relpRetVal.outOfMemory, pThis)

/-- DLL_Del of the list node holding the given session: the first entry
equal to it is unlinked, the rest of the list is unchanged. -/
def dllDel : List relpSess_t → relpSess_t → List relpSess_t
  | [], _ => []
  | x :: t, s => if x = s then t else x :: dllDel t s

/-- relpEngineDelSess: under mutSessLst, DLL_Del the entry from the session
list and decrement lenSessLst; afterwards the session object is destructed
and the entry freed. -/
def relpEngineDelSess (pThis : relpEngine_t) (pSess : relpSess_t) :
    relpEngine_t :=
  { pThis with pSessLst := dllDel pThis.pSessLst pSess,
               lenSessLst := pThis.lenSessLst - 1 }

/-- relpEngineSetDbgprint: install the given sink into the engine; a NULL
argument installs the no-op dbgprintDummy instead. The argument is modelled
as Option Nat: none is a NULL pointer, some f a user function. -/
def relpEngineSetDbgprint (pThis : relpEngine_t) (dbgprint : Option Nat) :
    relpEngine_t :=
  { pThis with dbgprint :=
      match dbgprint with
      | none => dbgSink_t.dummySink
      | some f => dbgSink_t.userSink f }

/-- Calling through the dbgprint field with a message, given the debug
output produced so far. Calling through a NULL function pointer is undefined
behaviour, modelled as none. dbgprintDummy has an empty body, so it leaves
the output unchanged. A user sink is printf-like and writes the message. -/
def dbgInvoke (sink : dbgSink_t) (msg : String) (log : List String) :
    Option (List String) :=
  match sink with
  | dbgSink_t.nullSink => none
  | dbgSink_t.dummySink => some log
  | dbgSink_t.userSink _ => some (log ++ [msg])

/-- The read descriptor set built at the top of every relpEngineRun
iteration (relp.c lines 395 to 412): every listen socket of every server in
the server list, then every session socket. -/
def engineReadFds (pThis : relpEngine_t) : List Int :=
  (pThis.pSrvLst.map (fun srv => srv.lstnSocks)).flatten
    ++ pThis.pSessLst.map (fun s => s.sock)

/-- The debug printing around the select call in relpEngineRun (relp.c lines
416 to 427): when the dbgprint field differs from dbgprintDummy, the sink is
called for the descriptor listing; after select returns, the line
`pThis->dbgprint("relp select returns, nfds %d\n", nfds)` calls the sink
unconditionally. none models a call through a NULL pointer. -/
def relpEngineRunDbgSelect (pThis : relpEngine_t) (log : List String) :
    Option (List String) :=
  let step1 :=
    if pThis.dbgprint ≠ dbgSink_t.dummySink then
      match dbgInvoke pThis.dbgprint "calling select, active file descriptors" log with
      | none => none
      | some l1 => dbgInvoke pThis.dbgprint "descriptor list" l1
    else some log
  match step1 with
  | none => none
  | some l => dbgInvoke pThis.dbgprint "relp select returns, nfds" l

/-- One listen socket handled in the accept loop of relpEngineRun (relp.c
lines 430 to 443): if select reported the socket read-ready,
relpSessAcceptAndConstruct is attempted (its outcome is the accept
parameter, some on success); on success the new session is added through
relpEngineAddToSess. A failing accept or add leaves the engine as it was:
the code ignores localRet there (TODO comment in the source). -/
def relpEngineRunAcceptSock (accept : Int → Option relpSess_t)
    (ready : Int → Bool) (allocOk : Bool) (pThis : relpEngine_t)
    (sock : Int) : relpEngine_t :=
  if ready sock then
    match accept sock with
    | some pNewSess => (relpEngineAddToSess allocOk pThis pNewSess).2
    | none => pThis
  else pThis

/-- The accept loop of relpEngineRun over every server and each of its
listen sockets, in list order. -/
def relpEngineRunAcceptPhase (accept : Int → Option relpSess_t)
    (ready : Int → Bool) (allocOk : Bool) (pThis : relpEngine_t) :
    relpEngine_t :=
  ((pThis.pSrvLst.map (fun srv => srv.lstnSocks)).flatten).foldl
    (relpEngineRunAcceptSock accept ready allocOk) pThis

/-- The sessions accepted during one accept phase: for each read-ready
listen socket, the session relpSessAcceptAndConstruct returns, in iteration
order. -/
def acceptedSess (accept : Int → Option relpSess_t) (ready : Int → Bool)
    (srvs : List relpSrv_t) : List relpSess_t :=
  (((srvs.map (fun srv => srv.lstnSocks)).flatten).filter ready).filterMap accept

/-- The session receive loop of relpEngineRun (relp.c lines 446 to 463), as
the pair (surviving entries, removed entries): a read-ready session whose
relpSessRcvData result is not RELP_RET_OK is torn down via relpEngineDelSess;
every other session is kept. The loop caches pNext before a removal, so it
visits every entry exactly once. -/
def processSessList (rcv : relpSess_t → relpRetVal) (ready : Int → Bool) :
    List relpSess_t → List relpSess_t × List relpSess_t
  | [] => ([], [])
  | s :: rest =>
    let p := processSessList rcv ready rest
    if ready s.sock && decide (rcv s ≠ relpRetVal.ok) then
      (p.1, s :: p.2)
    else
      (s :: p.1, p.2)

/-- The engine state after the session receive loop: the removed entries are
unlinked and lenSessLst is decremented once per relpEngineDelSess call. The
loop body consumes the error locally and never breaks out of the while. -/
def relpEngineRunSessPhase (rcv : relpSess_t → relpRetVal)
    (ready : Int → Bool) (pThis : relpEngine_t) : relpEngine_t :=
  { pThis with
    pSessLst := (processSessList rcv ready pThis.pSessLst).1,
    lenSessLst :=
      pThis.lenSessLst
        - ((processSessList rcv ready pThis.pSessLst).2.length : Int) }

/-- The external events one iteration of relpEngineRun reacts to: which
sockets select reports read-ready, what relpSessAcceptAndConstruct yields on
each listen socket, whether calloc succeeds, and what relpSessRcvData yields
on each session. -/
structure runInputs_t where
  ready : Int → Bool
  accept : Int → Option relpSess_t
  allocOk : Bool
  rcv : relpSess_t → relpRetVal

/-- One iteration of the while(1) body of relpEngineRun: build the read set,
wait in select, run the accept loop over the listener sockets, then the
session receive loop. -/
def relpEngineRunIter (inp : runInputs_t) (pThis : relpEngine_t) :
    relpEngine_t :=
  relpEngineRunSessPhase inp.rcv inp.ready
    (relpEngineRunAcceptPhase inp.accept inp.ready inp.allocOk pThis)

/-- relpEngineRun observed for a given number of loop iterations: some r
would mean the function returned to its caller with code r within that many
iterations, none that it is still looping. The body (relp.c line 394,
while(1) with the comment that this is an endless loop and termination is a
TODO) contains no break and no return, so each iteration only transforms the
engine and loops again. -/
def relpEngineRun (inputs : Nat → runInputs_t) :
    Nat → relpEngine_t → Option relpRetVal
  | 0, _ => none
  | n + 1, pThis => relpEngineRun inputs n (relpEngineRunIter (inputs n) pThis)

/-- relpEngineDispatchFrame on a frame whose cmd field is the given string:
cmd "init" dispatches to the handler relpSCInit, whose result (the scInitRet
parameter) is checked by CHKRet and becomes the return value; cmd "go" only
emits a debug message and returns RELP_RET_OK, calling no handler; any other
cmd string takes the else branch and aborts with RELP_RET_INVALID_CMD,
calling no handler. The second component names the command handler invoked,
if any. -/
def relpEngineDispatchFrame (scInitRet : relpRetVal) (cmd : String) :
    relpRetVal × Option String :=
  if cmd = "init" then (scInitRet, some "relpSCInit")
  else if cmd = "go" then (relpRetVal.ok, none)
  else (relpRetVal.invalidCmd, none)

/-- Events relevant to the locking discipline on the two engine lists:
taking and releasing each of the two mutexes mutSrvLst and mutSessLst, and
modifying (inserting into or removing from) each of the two lists. -/
inductive lockEv where
  | lockSrvLst
  | unlockSrvLst
  | lockSessLst
  | unlockSessLst
  | modSrvLst
  | modSessLst
  deriving DecidableEq, Repr

/-- Event trace of relpEngineAddToSrvList: after a successful allocation the
insertion happens between pthread_mutex_lock and pthread_mutex_unlock of
mutSrvLst; on OOM the function aborts without touching list or mutex. -/
def relpEngineAddToSrvListTrace (allocOk : Bool) : List lockEv :=
  if allocOk then
    [lockEv.lockSrvLst, lockEv.modSrvLst, lockEv.unlockSrvLst]
  else []

/-- Event trace of relpEngineAddToSess: after a successful allocation the
insertion happens between pthread_mutex_lock and pthread_mutex_unlock of
mutSessLst; on OOM the function aborts without touching list or mutex. -/
def relpEngineAddToSessTrace (allocOk : Bool) : List lockEv :=
  if allocOk then
    [lockEv.lockSessLst, lockEv.modSessLst, lockEv.unlockSessLst]
  else []

/-- Event trace of relpEngineDelSess: the removal happens between
pthread_mutex_lock and pthread_mutex_unlock of mutSessLst. -/
def relpEngineDelSessTrace : List lockEv :=
  [lockEv.lockSessLst, lockEv.modSessLst, lockEv.unlockSessLst]

/-- Checks a trace starting from the given hold depths of mutSrvLst and
mutSessLst: every modification of a list must happen while the hold depth of
the dedicated mutex of that list is positive. -/
def locksRespected : List lockEv → Nat → Nat → Bool
  | [], _, _ => true
  | lockEv.lockSrvLst :: t, a, b => locksRespected t (a + 1) b
  | lockEv.unlockSrvLst :: t, a, b => locksRespected t (a - 1) b
  | lockEv.lockSessLst :: t, a, b => locksRespected t a (b + 1)
  | lockEv.unlockSessLst :: t, a, b => locksRespected t a (b - 1)
  | lockEv.modSrvLst :: t, a, b => decide (0 < a) && locksRespected t a b
  | lockEv.modSessLst :: t, a, b => decide (0 < b) && locksRespected t a b

/-- The engine counter invariant: each length counter equals the length of
the linked list it counts. -/
def relpEngineInv (pThis : relpEngine_t) : Prop :=
  pThis.lenSrvLst = (pThis.pSrvLst.length : Int) ∧
  pThis.lenSessLst = (pThis.pSessLst.length : Int)

instance (pThis : relpEngine_t) : Decidable (relpEngineInv pThis) :=
  inferInstanceAs (Decidable (_ ∧ _))

/-- Helper: the accept fold with successful allocation appends, to the
session list, exactly the sessions accepted on the ready sockets, and
increments lenSessLst accordingly; no other field changes. -/
theorem foldl_acceptSock_spec (accept : Int → Option relpSess_t)
    (ready : Int → Bool) (socks : List Int) :
    ∀ e : relpEngine_t,
      socks.foldl (relpEngineRunAcceptSock accept ready true) e =
        { e with
          pSessLst := e.pSessLst ++ (socks.filter ready).filterMap accept,
          lenSessLst :=
            e.lenSessLst + (((socks.filter ready).filterMap accept).length : Int) } := by
  induction socks with
  | nil => intro e; simp
  | cons k t ih =>
    intro e
    by_cases hk : ready k = true
    · cases ha : accept k with
      | none =>
        simp only [List.foldl_cons, relpEngineRunAcceptSock, hk, ha, if_true]
        rw [ih]
        simp [List.filter_cons, hk, ha]
      | some s =>
        simp only [List.foldl_cons, relpEngineRunAcceptSock, hk, ha, if_true]
        rw [ih]
        simp only [relpEngineAddToSess, if_true]
        ext <;> simp [List.filter_cons, hk, ha, List.append_assoc, add_assoc,
          add_comm, add_left_comm]
    · simp only [List.foldl_cons, relpEngineRunAcceptSock, hk]
      rw [ih]
      simp [List.filter_cons, hk]

/-- Helper: the surviving sessions of the receive loop are exactly those
that were not read-ready or whose receive succeeded. -/
theorem processSessList_fst (rcv : relpSess_t → relpRetVal)
    (ready : Int → Bool) :
    ∀ l : List relpSess_t,
      (processSessList rcv ready l).1 =
        l.filter (fun s => !(ready s.sock && decide (rcv s ≠ relpRetVal.ok))) := by
  intro l
  induction l with
  | nil => rfl
  | cons s rest ih =>
    by_cases hr : ready s.sock = true
    · by_cases he : rcv s = relpRetVal.ok
      · simp [processSessList, List.filter_cons, hr, he, ih]
      · simp [processSessList, List.filter_cons, hr, he, ih]
    · simp [processSessList, List.filter_cons, hr, ih]

/-- Helper: the removed sessions of the receive loop are exactly the
read-ready sessions whose receive reported an error. -/
theorem processSessList_snd (rcv : relpSess_t → relpRetVal)
    (ready : Int → Bool) :
    ∀ l : List relpSess_t,
      (processSessList rcv ready l).2 =
        l.filter (fun s => ready s.sock && decide (rcv s ≠ relpRetVal.ok)) := by
  intro l
  induction l with
  | nil => rfl
  | cons s rest ih =>
    by_cases hr : ready s.sock = true
    · by_cases he : rcv s = relpRetVal.ok
      · simp [processSessList, List.filter_cons, hr, he, ih]
      · simp [processSessList, List.filter_cons, hr, he, ih]
    · simp [processSessList, List.filter_cons, hr, ih]

/-- Helper: the receive loop partitions the session list, so the lengths of
the surviving and the removed entries add up to the original length. -/
theorem processSessList_length (rcv : relpSess_t → relpRetVal)
    (ready : Int → Bool) :
    ∀ l : List relpSess_t,
      (processSessList rcv ready l).1.length
        + (processSessList rcv ready l).2.length = l.length := by
  intro l
  induction l with
  | nil => rfl
  | cons s rest ih =>
    by_cases h : (ready s.sock && decide (rcv s ≠ relpRetVal.ok)) = true
    · simp only [processSessList, h, if_true, List.length_cons]
      omega
    · simp only [processSessList, h, if_false, Bool.false_eq_true, List.length_cons]
      omega

/-- Helper: unlinking a present entry shortens the list by exactly one. -/
theorem dllDel_length (s : relpSess_t) :
    ∀ l : List relpSess_t, s ∈ l → (dllDel l s).length + 1 = l.length := by
  intro l
  induction l with
  | nil => intro h; cases h
  | cons x t ih =>
    intro h
    by_cases hx : x = s
    · simp [dllDel, hx]
    · have hm : s ∈ t := by
        cases h with
        | head => exact absurd rfl hx
        | tail _ h2 => exact h2
      simp only [dllDel, hx, if_false, List.length_cons]
      rw [← ih hm]

/-- Helper: every session in the engine session list contributes its socket
to the read descriptor set of the next iteration. -/
theorem sess_sock_mem_readFds (e : relpEngine_t) (s : relpSess_t)
    (h : s ∈ e.pSessLst) : s.sock ∈ engineReadFds e := by
  unfold engineReadFds
  refine List.mem_append.mpr (Or.inr ?_)
  exact List.mem_map.mpr ⟨s, h, rfl⟩

/-- Helper: membership in the accepted sessions of one accept phase. -/
theorem mem_acceptedSess (accept : Int → Option relpSess_t)
    (ready : Int → Bool) (srvs : List relpSrv_t) (s : relpSess_t) :
    s ∈ acceptedSess accept ready srvs ↔
      ∃ srv, srv ∈ srvs ∧ ∃ k, k ∈ srv.lstnSocks ∧ ready k = true ∧
        accept k = some s := by
  unfold acceptedSess
  simp only [List.mem_filterMap, List.mem_filter, List.mem_flatten,
    List.mem_map]
  constructor
  · rintro ⟨k, ⟨⟨l, ⟨srv, hsrv, rfl⟩, hkl⟩, hr⟩, ha⟩
    exact ⟨srv, hsrv, k, hkl, hr, ha⟩
  · rintro ⟨srv, hsrv, k, hkl, hr, ha⟩
    exact ⟨k, ⟨⟨srv.lstnSocks, ⟨srv, hsrv, rfl⟩, hkl⟩, hr⟩, ha⟩

/-- Helper: adding a session preserves the counter invariant. -/
theorem inv_addToSess (ok : Bool) (e : relpEngine_t) (s : relpSess_t)
    (h : relpEngineInv e) : relpEngineInv (relpEngineAddToSess ok e s).2 := by
  cases ok with
  | false => exact h
  | true =>
    obtain ⟨h1, h2⟩ := h
    refine ⟨h1, ?_⟩
    simp [relpEngineAddToSess, h2]

/-- Helper: adding a server preserves the counter invariant. -/
theorem inv_addToSrvList (ok : Bool) (e : relpEngine_t) (srv : relpSrv_t)
    (h : relpEngineInv e) :
    relpEngineInv (relpEngineAddToSrvList ok e srv).2 := by
  cases ok with
  | false => exact h
  | true =>
    obtain ⟨h1, h2⟩ := h
    refine ⟨?_, h2⟩
    simp [relpEngineAddToSrvList, h1]

/-- Helper: deleting a present session preserves the counter invariant. -/
theorem inv_delSess (e : relpEngine_t) (s : relpSess_t)
    (hm : s ∈ e.pSessLst) (h : relpEngineInv e) :
    relpEngineInv (relpEngineDelSess e s) := by
  obtain ⟨h1, h2⟩ := h
  refine ⟨h1, ?_⟩
  have := dllDel_length s e.pSessLst hm
  simp only [relpEngineDelSess]
  omega

/-- Helper: one step of the accept loop preserves the counter invariant. -/
theorem inv_acceptSock (accept : Int → Option relpSess_t)
    (ready : Int → Bool) (ok : Bool) (e : relpEngine_t) (k : Int)
    (h : relpEngineInv e) :
    relpEngineInv (relpEngineRunAcceptSock accept ready ok e k) := by
  unfold relpEngineRunAcceptSock
  by_cases hk : ready k = true
  · cases accept k with
    | none => simpa [hk] using h
    | some s => simpa [hk] using inv_addToSess ok e s h
  · simpa [hk] using h

/-- Helper: the whole accept phase preserves the counter invariant. -/
theorem inv_acceptPhase (accept : Int → Option relpSess_t)
    (ready : Int → Bool) (ok : Bool) (e : relpEngine_t)
    (h : relpEngineInv e) :
    relpEngineInv (relpEngineRunAcceptPhase accept ready ok e) := by
  unfold relpEngineRunAcceptPhase
  generalize (e.pSrvLst.map (fun srv => srv.lstnSocks)).flatten = socks
  induction socks generalizing e with
  | nil => exact h
  | cons k t ih =>
    exact ih _ (inv_acceptSock accept ready ok e k h)

/-- Helper: the session receive phase preserves the counter invariant. -/
theorem inv_sessPhase (rcv : relpSess_t → relpRetVal) (ready : Int → Bool)
    (e : relpEngine_t) (h : relpEngineInv e) :
    relpEngineInv (relpEngineRunSessPhase rcv ready e) := by
  obtain ⟨h1, h2⟩ := h
  refine ⟨h1, ?_⟩
  have := processSessList_length rcv ready e.pSessLst
  simp only [relpEngineRunSessPhase]
  omega

/-- Helper: one full loop iteration preserves the counter invariant. -/
theorem inv_runIter (inp : runInputs_t) (e : relpEngine_t)
    (h : relpEngineInv e) : relpEngineInv (relpEngineRunIter inp e) :=
  inv_sessPhase inp.rcv inp.ready _
    (inv_acceptPhase inp.accept inp.ready inp.allocOk e h)

/-- C1 counterexample: msg is one of the six defined command names, yet
relpEngineDispatchFrame answers it with RELP_RET_INVALID_CMD and invokes no
command handler, refuting the claim that every defined command is
recognized and dispatched to its handler. -/
theorem dispatchFrame_msg_returns_invalidCmd :
    relpEngineDispatchFrame relpRetVal.ok "msg"
      = (relpRetVal.invalidCmd, none) := by
  simp [relpEngineDispatchFrame]

/-- C1 (amended): relpEngineDispatchFrame recognizes only init and go: init
is dispatched to the handler relpSCInit and returns its result; go is
recognized but only emits a debug message and returns OK, invoking no
handler; each of the four remaining defined commands msg, close, rsp and
abort falls into the else branch and yields RELP_RET_INVALID_CMD with no
handler invoked. -/
theorem dispatchFrame_recognizes_only_init_and_go :
    ∀ r : relpRetVal,
      relpEngineDispatchFrame r "init" = (r, some "relpSCInit")
      ∧ relpEngineDispatchFrame r "go" = (relpRetVal.ok, none)
      ∧ relpEngineDispatchFrame r "msg" = (relpRetVal.invalidCmd, none)
      ∧ relpEngineDispatchFrame r "close" = (relpRetVal.invalidCmd, none)
      ∧ relpEngineDispatchFrame r "rsp" = (relpRetVal.invalidCmd, none)
      ∧ relpEngineDispatchFrame r "abort" = (relpRetVal.invalidCmd, none) := by
  intro r
  refine ⟨?_, ?_, ?_, ?_, ?_, ?_⟩ <;> simp [relpEngineDispatchFrame]

/-- C2: a frame whose cmd is not a recognized command name makes
relpEngineDispatchFrame return RELP_RET_INVALID_CMD without invoking any
command handler, and a read-ready session whose receive processing reports
an error is aborted by the readiness loop: it is among the entries torn
down by relpEngineDelSess and absent from the surviving session list. -/
theorem dispatch_unknown_invalid_and_session_aborted
    (scInitRet : relpRetVal) (cmd : String)
    (h1 : cmd ≠ "init") (h2 : cmd ≠ "go")
    (rcv : relpSess_t → relpRetVal) (ready : Int → Bool)
    (e : relpEngine_t) (s : relpSess_t)
    (hmem : s ∈ e.pSessLst) (hready : ready s.sock = true)
    (herr : rcv s ≠ relpRetVal.ok) :
    relpEngineDispatchFrame scInitRet cmd = (relpRetVal.invalidCmd, none)
    ∧ s ∉ (relpEngineRunSessPhase rcv ready e).pSessLst
    ∧ s ∈ (processSessList rcv ready e.pSessLst).2 := by
  refine ⟨?_, ?_, ?_⟩
  · simp [relpEngineDispatchFrame, h1, h2]
  · have hfst := processSessList_fst rcv ready e.pSessLst
    simp only [relpEngineRunSessPhase, hfst]
    simp [List.mem_filter, hready, herr]
  · rw [processSessList_snd]
    simp [List.mem_filter, hmem, hready, herr]

/-- C2 witness: the unknown command foo is answered with
RELP_RET_INVALID_CMD and no handler, and the one read-ready session of a
concrete engine whose receive errors is removed from the session list. -/
theorem dispatch_unknown_invalid_and_session_aborted_witness :
    relpEngineDispatchFrame relpRetVal.ok "foo"
      = (relpRetVal.invalidCmd, none)
    ∧ (⟨5⟩ : relpSess_t) ∉
        (relpEngineRunSessPhase (fun _ => relpRetVal.invalidCmd)
          (fun _ => true)
          { pSrvLst := [], lenSrvLst := 0, pSessLst := [⟨5⟩],
            lenSessLst := 1, dbgprint := dbgSink_t.nullSink }).pSessLst
    ∧ (⟨5⟩ : relpSess_t) ∈
        (processSessList (fun _ => relpRetVal.invalidCmd) (fun _ => true)
          [⟨5⟩]).2 :=
  dispatch_unknown_invalid_and_session_aborted relpRetVal.ok "foo"
    (by decide) (by decide) (fun _ => relpRetVal.invalidCmd) (fun _ => true)
    { pSrvLst := [], lenSrvLst := 0, pSessLst := [⟨5⟩], lenSessLst := 1,
      dbgprint := dbgSink_t.nullSink } ⟨5⟩
    (by decide) (by decide) (by decide)

/-- C3: the session receive loop of relpEngineRun removes exactly the
read-ready sessions whose receive reported an error: the surviving list
keeps every other session, the removed entries are precisely the erroring
ones, the listener list and its counter are untouched, the debug sink is
untouched, lenSessLst drops by one per removal, and the phase is a total
function on engines, so no error escapes the loop. -/
theorem sessPhase_removes_exactly_erroring
    (rcv : relpSess_t → relpRetVal) (ready : Int → Bool)
    (e : relpEngine_t) :
    (relpEngineRunSessPhase rcv ready e).pSessLst
        = e.pSessLst.filter
            (fun s => !(ready s.sock && decide (rcv s ≠ relpRetVal.ok)))
    ∧ (processSessList rcv ready e.pSessLst).2
        = e.pSessLst.filter
            (fun s => ready s.sock && decide (rcv s ≠ relpRetVal.ok))
    ∧ (relpEngineRunSessPhase rcv ready e).pSrvLst = e.pSrvLst
    ∧ (relpEngineRunSessPhase rcv ready e).lenSrvLst = e.lenSrvLst
    ∧ (relpEngineRunSessPhase rcv ready e).dbgprint = e.dbgprint
    ∧ (relpEngineRunSessPhase rcv ready e).lenSessLst
        = e.lenSessLst
            - ((processSessList rcv ready e.pSessLst).2.length : Int) := by
  refine ⟨?_, processSessList_snd rcv ready e.pSessLst, rfl, rfl, rfl, rfl⟩
  simp only [relpEngineRunSessPhase]
  exact processSessList_fst rcv ready e.pSessLst

/-- C4 counterexample: a concrete freshly constructed engine run for five
whole loop iterations has still not returned to its caller. -/
theorem relpEngineRun_concrete_still_looping :
    relpEngineRun
      (fun _ =>
        ⟨fun _ => false, fun _ => none, true, fun _ => relpRetVal.ok⟩)
      5
      { pSrvLst := [], lenSrvLst := 0, pSessLst := [], lenSessLst := 0,
        dbgprint := dbgSink_t.nullSink } = none := by
  rfl

/-- C4 (amended): relpEngineRun never returns: under any inputs and after
any number of iterations the function is still inside its while(1) loop;
the body contains no termination check at all, so no posted shutdown signal
can make the loop exit. -/
theorem relpEngineRun_never_returns :
    ∀ (inputs : Nat → runInputs_t) (n : Nat) (e : relpEngine_t),
      relpEngineRun inputs n e = none := by
  intro inputs n
  induction n with
  | zero => intro e; rfl
  | succ k ih =>
    intro e
    rw [relpEngineRun]
    exact ih _

/-- C5: with allocation succeeding, the accept loop appends to the session
list exactly the sessions accepted on read-ready listener sockets; a
session is accepted iff some ready listen socket of some listed server
yielded it; the listener list is unchanged; and every session of the
resulting engine, the fresh ones included, contributes its socket to the
read descriptor set built by the next loop iteration. -/
theorem acceptPhase_inserts_accepted_sessions
    (accept : Int → Option relpSess_t) (ready : Int → Bool)
    (e : relpEngine_t) :
    (relpEngineRunAcceptPhase accept ready true e).pSessLst
        = e.pSessLst ++ acceptedSess accept ready e.pSrvLst
    ∧ (∀ s : relpSess_t,
        s ∈ acceptedSess accept ready e.pSrvLst ↔
          ∃ srv, srv ∈ e.pSrvLst ∧ ∃ k, k ∈ srv.lstnSocks ∧ ready k = true
            ∧ accept k = some s)
    ∧ (relpEngineRunAcceptPhase accept ready true e).pSrvLst = e.pSrvLst
    ∧ (∀ s : relpSess_t,
        s ∈ (relpEngineRunAcceptPhase accept ready true e).pSessLst →
          s.sock ∈ engineReadFds (relpEngineRunAcceptPhase accept ready true e)) := by
  have hspec := foldl_acceptSock_spec accept ready
      ((e.pSrvLst.map (fun srv => srv.lstnSocks)).flatten) e
  refine ⟨?_, ?_, ?_, ?_⟩
  · rw [relpEngineRunAcceptPhase, hspec]
    rfl
  · intro s
    exact mem_acceptedSess accept ready e.pSrvLst s
  · rw [relpEngineRunAcceptPhase, hspec]
  · intro s hs
    exact sess_sock_mem_readFds _ s hs

/-- C5 witness: one server with listen socket 7, every socket ready, accept
yielding the session with that socket: the session list becomes exactly the
accepted list and the new socket is in the next read set. -/
theorem acceptPhase_inserts_accepted_sessions_witness :
    (relpEngineRunAcceptPhase (fun k => some ⟨k⟩) (fun _ => true) true
        { pSrvLst := [⟨[7]⟩], lenSrvLst := 1, pSessLst := [],
          lenSessLst := 0, dbgprint := dbgSink_t.dummySink }).pSessLst
      = ([] : List relpSess_t)
          ++ acceptedSess (fun k => some ⟨k⟩) (fun _ => true) [⟨[7]⟩]
    ∧ (⟨7⟩ : relpSess_t).sock ∈
        engineReadFds
          (relpEngineRunAcceptPhase (fun k => some ⟨k⟩) (fun _ => true) true
            { pSrvLst := [⟨[7]⟩], lenSrvLst := 1, pSessLst := [],
              lenSessLst := 0, dbgprint := dbgSink_t.dummySink }) :=
  ⟨(acceptPhase_inserts_accepted_sessions (fun k => some ⟨k⟩)
      (fun _ => true)
      { pSrvLst := [⟨[7]⟩], lenSrvLst := 1, pSessLst := [],
        lenSessLst := 0, dbgprint := dbgSink_t.dummySink }).1,
   (acceptPhase_inserts_accepted_sessions (fun k => some ⟨k⟩)
      (fun _ => true)
      { pSrvLst := [⟨[7]⟩], lenSrvLst := 1, pSessLst := [],
        lenSessLst := 0, dbgprint := dbgSink_t.dummySink }).2.2.2
     ⟨7⟩ (by decide)⟩

/-- C6: when allocation fails, relpEngineConstruct, relpEngineAddToSrvList
and relpEngineAddToSess each return RELP_RET_OUT_OF_MEMORY and abort; the
two adds hand the engine back exactly as it was, so both lists and both
length counters are unchanged. -/
theorem oom_aborts_leave_engine_unchanged :
    relpEngineConstruct false = Except.error relpRetVal.outOfMemory
    ∧ (∀ (e : relpEngine_t) (srv : relpSrv_t),
        relpEngineAddToSrvList false e srv = (relpRetVal.outOfMemory, e))
    ∧ (∀ (e : relpEngine_t) (s : relpSess_t),
        relpEngineAddToSess false e s = (relpRetVal.outOfMemory, e)) :=
  ⟨rfl, fun _ _ => rfl, fun _ _ => rfl⟩

/-- C7: after any relpEngineSetDbgprint call the dbgprint field is a
callable function, never NULL; a NULL argument installs the no-op
dbgprintDummy; and invoking the installed dummy succeeds and leaves the
debug output unchanged. -/
theorem setDbgprint_installs_callable_sink :
    ∀ (e : relpEngine_t) (p : Option Nat) (msg : String)
      (log : List String),
      (relpEngineSetDbgprint e p).dbgprint ≠ dbgSink_t.nullSink
      ∧ (relpEngineSetDbgprint e none).dbgprint = dbgSink_t.dummySink
      ∧ dbgInvoke dbgSink_t.dummySink msg log = some log := by
  intro e p msg log
  refine ⟨?_, rfl, rfl⟩
  cases p <;> simp [relpEngineSetDbgprint]

/-- C8: along the event traces of relpEngineAddToSrvList,
relpEngineAddToSess and relpEngineDelSess, every insertion into and removal
from an engine list happens while the hold depth of that list's dedicated
mutex is positive, whichever way allocation goes. -/
theorem list_mutations_hold_dedicated_mutex :
    ∀ ok : Bool,
      locksRespected (relpEngineAddToSrvListTrace ok) 0 0 = true
      ∧ locksRespected (relpEngineAddToSessTrace ok) 0 0 = true
      ∧ locksRespected relpEngineDelSessTrace 0 0 = true := by
  intro ok
  cases ok <;> exact ⟨rfl, rfl, rfl⟩

/-- C9: relpEngineConstruct leaves dbgprint NULL (the calloc zero), not the
no-op dummy; the debug printing relpEngineRun performs around select, whose
post-wait call goes through the sink unconditionally, then dereferences a
NULL function pointer on an engine on which relpEngineSetDbgprint was never
called; and only a relpEngineSetDbgprint call installs a non-NULL sink,
after which the same debug printing succeeds. -/
theorem construct_null_dbgprint_run_dereferences_null :
    (∀ e : relpEngine_t, relpEngineConstruct true = Except.ok e →
      e.dbgprint = dbgSink_t.nullSink
      ∧ ∀ log : List String, relpEngineRunDbgSelect e log = none)
    ∧ (∀ (e : relpEngine_t) (p : Option Nat) (log : List String),
        (relpEngineSetDbgprint e p).dbgprint ≠ dbgSink_t.nullSink
        ∧ relpEngineRunDbgSelect (relpEngineSetDbgprint e p) log ≠ none) := by
  constructor
  · intro e h
    have he : e =
        { pSrvLst := [], lenSrvLst := 0, pSessLst := [], lenSessLst := 0,
          dbgprint := dbgSink_t.nullSink } := by
      simpa [relpEngineConstruct] using h.symm
    subst he
    exact ⟨rfl, fun _ => rfl⟩
  · intro e p log
    cases p with
    | none =>
      refine ⟨by simp [relpEngineSetDbgprint], ?_⟩
      simp [relpEngineSetDbgprint, relpEngineRunDbgSelect, dbgInvoke]
    | some f =>
      refine ⟨by simp [relpEngineSetDbgprint], ?_⟩
      simp [relpEngineSetDbgprint, relpEngineRunDbgSelect, dbgInvoke]

/-- C9 witness: the concrete engine relpEngineConstruct yields has a NULL
dbgprint and its run-loop debug printing dereferences NULL. -/
theorem construct_null_dbgprint_run_dereferences_null_witness :
    ({ pSrvLst := [], lenSrvLst := 0, pSessLst := [], lenSessLst := 0,
       dbgprint := dbgSink_t.nullSink } : relpEngine_t).dbgprint
        = dbgSink_t.nullSink
    ∧ relpEngineRunDbgSelect
        { pSrvLst := [], lenSrvLst := 0, pSessLst := [], lenSessLst := 0,
          dbgprint := dbgSink_t.nullSink } [] = none :=
  ⟨(construct_null_dbgprint_run_dereferences_null.1 _ rfl).1,
   (construct_null_dbgprint_run_dereferences_null.1 _ rfl).2 []⟩

/-- C10: the counter invariant (lenSrvLst counts the listener list,
lenSessLst the session list) holds after construction and is preserved by
every operation; each successful add links exactly one entry at the tail
and increments its counter by one, a delete of a present entry unlinks
exactly that entry and decrements the counter by one, setting the debug
sink touches neither lists nor counters, and a full iteration of the
relpEngineRun loop preserves the invariant. -/
theorem engine_length_invariant_preserved :
    (∀ e : relpEngine_t,
        relpEngineConstruct true = Except.ok e → relpEngineInv e)
    ∧ (∀ (ok : Bool) (e : relpEngine_t) (srv : relpSrv_t),
        relpEngineInv e →
          relpEngineInv (relpEngineAddToSrvList ok e srv).2)
    ∧ (∀ (e : relpEngine_t) (srv : relpSrv_t),
        (relpEngineAddToSrvList true e srv).2.pSrvLst = e.pSrvLst ++ [srv]
        ∧ (relpEngineAddToSrvList true e srv).2.lenSrvLst = e.lenSrvLst + 1
        ∧ (relpEngineAddToSrvList true e srv).2.pSessLst = e.pSessLst
        ∧ (relpEngineAddToSrvList true e srv).2.lenSessLst = e.lenSessLst)
    ∧ (∀ (ok : Bool) (e : relpEngine_t) (s : relpSess_t),
        relpEngineInv e → relpEngineInv (relpEngineAddToSess ok e s).2)
    ∧ (∀ (e : relpEngine_t) (s : relpSess_t),
        (relpEngineAddToSess true e s).2.pSessLst = e.pSessLst ++ [s]
        ∧ (relpEngineAddToSess true e s).2.lenSessLst = e.lenSessLst + 1
        ∧ (relpEngineAddToSess true e s).2.pSrvLst = e.pSrvLst
        ∧ (relpEngineAddToSess true e s).2.lenSrvLst = e.lenSrvLst)
    ∧ (∀ (e : relpEngine_t) (s : relpSess_t),
        s ∈ e.pSessLst → relpEngineInv e →
          relpEngineInv (relpEngineDelSess e s)
          ∧ (relpEngineDelSess e s).lenSessLst = e.lenSessLst - 1
          ∧ (relpEngineDelSess e s).pSessLst = dllDel e.pSessLst s
          ∧ (relpEngineDelSess e s).pSrvLst = e.pSrvLst
          ∧ (relpEngineDelSess e s).lenSrvLst = e.lenSrvLst)
    ∧ (∀ (e : relpEngine_t) (p : Option Nat),
        (relpEngineSetDbgprint e p).pSrvLst = e.pSrvLst
        ∧ (relpEngineSetDbgprint e p).lenSrvLst = e.lenSrvLst
        ∧ (relpEngineSetDbgprint e p).pSessLst = e.pSessLst
        ∧ (relpEngineSetDbgprint e p).lenSessLst = e.lenSessLst)
    ∧ (∀ (inp : runInputs_t) (e : relpEngine_t),
        relpEngineInv e → relpEngineInv (relpEngineRunIter inp e)) := by
  refine ⟨?_, ?_, ?_, ?_, ?_, ?_, ?_, ?_⟩
  · intro e h
    have he : e =
        { pSrvLst := [], lenSrvLst := 0, pSessLst := [], lenSessLst := 0,
          dbgprint := dbgSink_t.nullSink } := by
      simpa [relpEngineConstruct] using h.symm
    subst he
    exact ⟨rfl, rfl⟩
  · exact fun ok e srv h => inv_addToSrvList ok e srv h
  · intro e srv
    refine ⟨?_, ?_, ?_, ?_⟩ <;> simp [relpEngineAddToSrvList]
  · exact fun ok e s h => inv_addToSess ok e s h
  · intro e s
    refine ⟨?_, ?_, ?_, ?_⟩ <;> simp [relpEngineAddToSess]
  · intro e s hm h
    exact ⟨inv_delSess e s hm h, rfl, rfl, rfl, rfl⟩
  · intro e p
    exact ⟨rfl, rfl, rfl, rfl⟩
  · exact fun inp e h => inv_runIter inp e h

/-- C10 witness: the invariant survives a concrete delete of the only
session and a concrete full loop iteration on the empty engine. -/
theorem engine_length_invariant_preserved_witness :
    relpEngineInv
      (relpEngineDelSess
        { pSrvLst := [], lenSrvLst := 0, pSessLst := [⟨3⟩],
          lenSessLst := 1, dbgprint := dbgSink_t.nullSink } ⟨3⟩)
    ∧ relpEngineInv
        (relpEngineRunIter
          ⟨fun _ => true, fun _ => none, true, fun _ => relpRetVal.ok⟩
          { pSrvLst := [], lenSrvLst := 0, pSessLst := [],
            lenSessLst := 0, dbgprint := dbgSink_t.nullSink }) :=
  ⟨(engine_length_invariant_preserved.2.2.2.2.2.1
      { pSrvLst := [], lenSrvLst := 0, pSessLst := [⟨3⟩],
        lenSessLst := 1, dbgprint := dbgSink_t.nullSink } ⟨3⟩
      (by decide) (by decide)).1,
   engine_length_invariant_preserved.2.2.2.2.2.2.2
     ⟨fun _ => true, fun _ => none, true, fun _ => relpRetVal.ok⟩
     { pSrvLst := [], lenSrvLst := 0, pSessLst := [],
       lenSessLst := 0, dbgprint := dbgSink_t.nullSink } (by decide)⟩

end Librelp
